import Mathlib

/-!
Shallow embedding of `src/import-via-mcp.py`, a one-shot CSV-to-SQL migration
script.  Strings are modelled as `List Char`; Python string methods
(`str.title`, `str.lower`, `str.strip`, `str.split`, `str.replace`,
`str.join`) are embedded for the ASCII subset the script manipulates.
Fallible parses (`float`, `int` wrapped in try/except) return `Option`.
The HTTP layer is abstracted by an outcome type: a response with a status
code, raw body and the result of JSON-parsing the body, or a raised
transport exception.
-/

namespace ScentSwap

abbrev Str := List Char

/-- The single-quote character, written by code point to keep literals plain. -/
def squote : Char := Char.ofNat 39

/-- Python `s.replace(a, b)` for single-character `a`, `b`: pointwise map. -/
def replaceChar (a b : Char) (s : Str) : Str :=
  s.map (fun c => if c = a then b else c)

/-- Python `s.lower()` restricted to ASCII letters. -/
def pyLower (s : Str) : Str := s.map Char.toLower

/-- Worker for Python `s.title()`: `prev` records whether the previous
character was alphabetic; an alphabetic character is uppercased when it
starts a word and lowercased otherwise; other characters pass through and
end the current word. -/
def pyTitleAux : Bool → Str → Str
  | _, [] => []
  | prev, c :: cs =>
    if c.isAlpha then
      (if prev then c.toLower else c.toUpper) :: pyTitleAux true cs
    else
      c :: pyTitleAux false cs

/-- Python `s.title()` (ASCII subset). -/
def pyTitle (s : Str) : Str := pyTitleAux false s

/-- Python `s.strip()`: drop whitespace from both ends. -/
def pyStrip (s : Str) : Str :=
  ((s.dropWhile Char.isWhitespace).reverse.dropWhile Char.isWhitespace).reverse

/-- Python `s.split(sep)` for a single-character separator: every occurrence
of `sep` splits, empty pieces are kept, so the result is always nonempty. -/
def splitOnChar (sep : Char) : Str → List Str
  | [] => [[]]
  | c :: cs =>
    match splitOnChar sep cs with
    | [] => [[]]
    | p :: ps => if c = sep then [] :: p :: ps else (c :: p) :: ps

/-- Python `sep.join(parts)`. -/
def pyJoin (sep : Str) : List Str → Str
  | [] => []
  | [v] => v
  | v :: vs => v ++ sep ++ pyJoin sep vs

/-- Digits of a decimal numeral to a natural number (used by the `float` and
`int` models; callers check that every character is a digit). -/
def digitsToNat (s : Str) : Nat :=
  s.foldl (fun acc c => acc * 10 + (c.toNat - 48)) 0

/-- Unsigned part of Python `float(s)` on plain decimal numerals
(`"12"`, `"12.5"`, `".5"`, `"12."`); exponent, infinity and NaN forms are
not modelled — the script's rating column holds plain decimals. `none`
models the `ValueError` that the script's `except` turns into `None`. -/
def parsePosDecimal (s : Str) : Option ℚ :=
  match splitOnChar '.' s with
  | [ip] =>
    if ip ≠ [] ∧ ip.all Char.isDigit then some (mkRat (digitsToNat ip) 1) else none
  | [ip, fp] =>
    if (ip ++ fp) ≠ [] ∧ ip.all Char.isDigit ∧ fp.all Char.isDigit then
      some (mkRat (digitsToNat ip * 10 ^ fp.length + digitsToNat fp) (10 ^ fp.length))
    else none
  | _ => none

/-- Python `float(s)` on plain decimal numerals: optional surrounding
whitespace and an optional sign. -/
def pyFloat (s : Str) : Option ℚ :=
  match pyStrip s with
  | '-' :: rest => (parsePosDecimal rest).map (fun q => -q)
  | '+' :: rest => parsePosDecimal rest
  | t => parsePosDecimal t

/-- Python `int(s)` on decimal numerals: optional surrounding whitespace and
an optional sign. `none` models the `ValueError` caught by the script. -/
def pyInt (s : Str) : Option ℤ :=
  match pyStrip s with
  | '-' :: rest =>
    if rest ≠ [] ∧ rest.all Char.isDigit then some (-(digitsToNat rest : ℤ)) else none
  | '+' :: rest =>
    if rest ≠ [] ∧ rest.all Char.isDigit then some (digitsToNat rest : ℤ) else none
  | t =>
    if t ≠ [] ∧ t.all Char.isDigit then some (digitsToNat t : ℤ) else none

/-- Line 77: `float(row[5].replace(',', '.')) if row[5] else None`, with the
surrounding try/except collapsing a parse failure to `None`. -/
def parseRating (s : Str) : Option ℚ :=
  if s = [] then none else pyFloat (replaceChar ',' '.' s)

/-- Line 82: `int(row[7]) if row[7] else None`, with try/except. -/
def parseYear (s : Str) : Option ℤ :=
  if s = [] then none else pyInt s

/-- Lines 86-88: `[n.strip() for n in col.split(',') if n.strip() and
n.strip().lower() != 'unknown']`. -/
def parseNotes (s : Str) : List Str :=
  ((splitOnChar ',' s).map pyStrip).filter
    (fun t => decide (t ≠ [] ∧ pyLower t ≠ "unknown".toList))

/-- Line 70: `row[2].replace('-', ' ').title().replace(' ', '-')`. -/
def normalizeBrand (s : Str) : Str :=
  replaceChar ' ' '-' (pyTitle (replaceChar '-' ' ' s))

/-- Modelled from the spec sentence "title-casing B with hyphens treated as
word boundaries, then hyphen-joining the resulting words": split on hyphens,
title-case each piece, re-join with hyphens.  Kept separate from
`normalizeBrand` (the code's transform) so the two can be compared. -/
def specNormalizeBrand (s : Str) : Str :=
  pyJoin ['-'] ((splitOnChar '-' s).map pyTitle)

/-- Lines 72-74: lowercase, then remap `"women"` to `"female"` and `"men"`
to `"male"`. -/
def normalizeGender (s : Str) : Str :=
  let g := pyLower s
  let g1 := if g = "women".toList then "female".toList else g
  if g1 = "men".toList then "male".toList else g1

/-- The in-memory record built for each CSV row (lines 94-105). -/
structure FragranceRecord where
  url : Str
  name : Str
  brand : Str
  country : Str
  gender : Str
  rating : Option ℚ
  year : Option ℤ
  top_notes : List Str
  middle_notes : List Str
  base_notes : List Str
deriving DecidableEq, Repr

/-- Lines 63-105, one loop iteration: a row with fewer than 11 columns is
skipped (`continue`), otherwise its fields are extracted and normalized. -/
def parseRow (row : List Str) : Option FragranceRecord :=
  if row.length < 11 then none
  else some
    { url := row.getD 0 []
      name := row.getD 1 []
      brand := normalizeBrand (row.getD 2 [])
      country := row.getD 3 []
      gender := normalizeGender (row.getD 4 [])
      rating := parseRating (row.getD 5 [])
      year := parseYear (row.getD 7 [])
      top_notes := parseNotes (row.getD 8 [])
      middle_notes := parseNotes (row.getD 9 [])
      base_notes := parseNotes (row.getD 10 []) }

/-- Accumulator of `load_csv_data`: the `brands` set, the `notes` set and
the `fragrances` list.  Python's unordered sets are determinized as
insertion-ordered duplicate-free lists; set membership is unaffected. -/
structure LoadState where
  brands : List Str
  notes : List Str
  fragrances : List FragranceRecord
deriving DecidableEq, Repr

def emptyState : LoadState := ⟨[], [], []⟩

/-- `set.add`: insert unless already present. -/
def insertNew [DecidableEq α] (x : α) (l : List α) : List α :=
  if x ∈ l then l else l ++ [x]

/-- `notes.update(top_notes + middle_notes + base_notes)` (line 92). -/
def addNotes (ns : List Str) (acc : List Str) : List Str :=
  ns.foldl (fun a n => insertNew n a) acc

/-- One iteration of the row loop acting on the accumulator: a skipped row
leaves the state unchanged, otherwise the brand is added to the brand set,
all note tokens to the note set, and the record appended (lines 63-105). -/
def processRow (st : LoadState) (row : List Str) : LoadState :=
  match parseRow row with
  | none => st
  | some fr =>
    { brands := insertNew fr.brand st.brands
      notes := addNotes (fr.top_notes ++ fr.middle_notes ++ fr.base_notes) st.notes
      fragrances := st.fragrances ++ [fr] }

def processRows (rows : List (List Str)) (st : LoadState) : LoadState :=
  rows.foldl processRow st

/-- Outcome of decoding the CSV file under one encoding: either the whole
file decodes into data rows (after the header), or a `UnicodeDecodeError`
is raised mid-file after some leading rows were already decoded and
processed. -/
inductive DecodeResult where
  | ok (rows : List (List Str))
  | fail (rowsBeforeError : List (List Str))
deriving DecidableEq

/-- Lines 56-113: the encoding loop.  The accumulator is initialized once,
before the loop; a failed attempt keeps whatever it accumulated and the
next encoding is tried on the same state; the loop `break`s on the first
full decode.  If every encoding fails the accumulated state is returned
as-is (the `except UnicodeDecodeError: continue` falls through to the
final `return`). -/
def loadCSVAux : LoadState → List DecodeResult → LoadState
  | st, [] => st
  | st, .ok rows :: _ => processRows rows st
  | st, .fail pre :: rest => loadCSVAux (processRows pre st) rest

/-- `load_csv_data` (lines 49-119), abstracted over the per-encoding decode
outcomes of the input file, in the order the encodings are tried. -/
def load_csv_data (attempts : List DecodeResult) : LoadState :=
  loadCSVAux emptyState attempts

/-- Line 127 / 144: `s.replace("'", "''")` — double every single quote. -/
def escapeQuotes (s : Str) : Str :=
  s.flatMap (fun c => if c = squote then [squote, squote] else [c])

/-- Line 128 / 145: `f"('{escaped}')"` — one SQL value tuple. -/
def sqlValueTuple (s : Str) : Str :=
  '(' :: squote :: (escapeQuotes s ++ [squote, ')'])

/-- Lines 129-133: the brands INSERT statement text. -/
def brandsInsertSQL (batch : List Str) : Str :=
  "\n    INSERT INTO brands (name) VALUES\n    ".toList ++
    pyJoin [','] (batch.map sqlValueTuple) ++
    "\n    ON CONFLICT (name) DO NOTHING;\n    ".toList

/-- Lines 146-150: the notes INSERT statement text. -/
def notesInsertSQL (batch : List Str) : Str :=
  "\n    INSERT INTO notes (name) VALUES\n    ".toList ++
    pyJoin [','] (batch.map sqlValueTuple) ++
    "\n    ON CONFLICT (name) DO NOTHING;\n    ".toList

/-- Result of one `requests.post`: either an HTTP response carrying the
status code, the raw body text, and the result of JSON-parsing the body
(`none` when `response.json()` would raise), or a raised transport
exception.  `J` is the abstract type of parsed JSON values. -/
inductive HttpOutcome (J : Type) where
  | response (status : Nat) (body : Str) (json : Option J)
  | exception (msg : Str)

/-- `execute_sql` (lines 25-47) given the outcome of its POST: on status
200 it returns `response.json()` (a parse failure raises inside the `try`
and is caught, yielding `None`); on any other status it logs and returns
`None`; a raised exception is caught, logged, and yields `None`.  The
function is total: no exception escapes. -/
def execute_sql {J : Type} (outcome : HttpOutcome J) : Option J :=
  match outcome with
  | .response status _ json => if status = 200 then json else none
  | .exception _ => none

/-- `create_brands_batch` (lines 121-136) with the network abstracted as a
map from SQL text to POST outcome: an empty batch returns `True` with no
call; otherwise the statement is built, executed once, and success is
`result is not None`.  The second component is the list of SQL statements
sent (the call log). -/
def create_brands_batch {J : Type} (transport : Str → HttpOutcome J)
    (batch : List Str) : Bool × List Str :=
  if batch.isEmpty then (true, [])
  else
    let sql := brandsInsertSQL batch
    ((execute_sql (transport sql)).isSome, [sql])

/-- `create_notes_batch` (lines 138-153), same shape as the brands one. -/
def create_notes_batch {J : Type} (transport : Str → HttpOutcome J)
    (batch : List Str) : Bool × List Str :=
  if batch.isEmpty then (true, [])
  else
    let sql := notesInsertSQL batch
    ((execute_sql (transport sql)).isSome, [sql])

/-- Python `range(start, stop, step)` for a positive step. -/
def pyRange (start stop step : Nat) : List Nat :=
  if _h : 0 < step ∧ start < stop then start :: pyRange (start + step) stop step
  else []
termination_by stop - start
decreasing_by omega

/-- Python `l[i:i+n]` for in-range `i`. -/
def pySlice (l : List α) (i n : Nat) : List α := (l.drop i).take n

/-- Lines 170-172 / 181-182: `for i in range(0, len(l), 50): batch = l[i:i+50]`. -/
def batches (l : List α) : List (List α) :=
  (pyRange 0 l.length 50).map (fun i => pySlice l i 50)

/-- The sequence of SQL statements `main` (lines 168-187) sends: both batch
loops run unconditionally over every batch — a failed batch only triggers a
print — so the call log is the concatenation of each iteration's log. -/
def mainBatchTrace {J : Type} (transport : Str → HttpOutcome J)
    (brands notes : List Str) : List Str :=
  ((batches brands).foldl (fun log b => log ++ (create_brands_batch transport b).2) []) ++
    ((batches notes).foldl (fun log b => log ++ (create_notes_batch transport b).2) [])

/-! ## Claim theorems -/

/-- The sample CSV data row of the end-to-end scenario. -/
def sampleRow : Str :=
  "http://x;Eau Sauvage;christian-dior;FR;Men;4,5;;1966;Bergamot, Lemon;Unknown;Amber".toList

/-- C1: loading the single CSV data row
`http://x;Eau Sauvage;christian-dior;FR;Men;4,5;;1966;Bergamot, Lemon;Unknown;Amber`
produces exactly one fragrance record, with brand `"Christian-Dior"`,
gender `"male"`, rating `4.5`, year `1966`,
`top_notes = ["Bergamot", "Lemon"]`, `middle_notes = []` and
`base_notes = ["Amber"]`. -/
theorem claim1_sample_row_load :
    (load_csv_data [.ok [splitOnChar ';' sampleRow]]).fragrances =
      [{ url := "http://x".toList
         name := "Eau Sauvage".toList
         brand := "Christian-Dior".toList
         country := "FR".toList
         gender := "male".toList
         rating := some (mkRat 9 2)
         year := some 1966
         top_notes := ["Bergamot".toList, "Lemon".toList]
         middle_notes := []
         base_notes := ["Amber".toList] }] := by decide

/-- C3: gender normalization sends any string whose lowercasing is `"women"`
to `"female"` and any whose lowercasing is `"men"` to `"male"`; every other
value passes through lowercased and otherwise unchanged. -/
theorem claim3_gender_normalization (s : Str) :
    (pyLower s = "women".toList → normalizeGender s = "female".toList) ∧
    (pyLower s = "men".toList → normalizeGender s = "male".toList) ∧
    (pyLower s ≠ "women".toList → pyLower s ≠ "men".toList →
      normalizeGender s = pyLower s) := by
  refine ⟨fun h => ?_, fun h => ?_, fun h1 h2 => ?_⟩
  · simp only [normalizeGender, h]; decide
  · simp only [normalizeGender, h]; decide
  · simp only [normalizeGender, if_neg h1, if_neg h2]

/-- Witness for C3 at the concrete inputs `"WoMen"`, `"MEN"` and `"Unisex"`. -/
theorem claim3_gender_normalization_witness :
    normalizeGender "WoMen".toList = "female".toList ∧
    normalizeGender "MEN".toList = "male".toList ∧
    normalizeGender "Unisex".toList = "unisex".toList :=
  ⟨(claim3_gender_normalization "WoMen".toList).1 (by decide),
   (claim3_gender_normalization "MEN".toList).2.1 (by decide),
   (claim3_gender_normalization "Unisex".toList).2.2 (by decide) (by decide)⟩

/-- C7: a row with fewer than 11 columns is excluded from all outputs —
removing it from the row sequence leaves the accumulated state (brand set,
note set, fragrance list) unchanged — and processing, being a total
function, continues with the remaining rows without throwing. -/
theorem claim7_short_row_skipped (st : LoadState) (rows1 rows2 : List (List Str))
    (r : List Str) (h : r.length < 11) :
    processRows (rows1 ++ r :: rows2) st = processRows (rows1 ++ rows2) st := by
  unfold processRows
  rw [List.foldl_append, List.foldl_append, List.foldl_cons]
  have hr : processRow (List.foldl processRow st rows1) r
      = List.foldl processRow st rows1 := by
    unfold processRow parseRow
    rw [if_pos h]
  rw [hr]

/-- Witness for C7 at a concrete 3-column row inside a 2-row sequence. -/
theorem claim7_short_row_skipped_witness :
    processRows [[ "a".toList, "b".toList, "c".toList ], []] emptyState =
      processRows [[]] emptyState :=
  claim7_short_row_skipped emptyState [] [[]]
    [ "a".toList, "b".toList, "c".toList ] (by decide)

/-- C8: the remote executor returns the parsed JSON body on an HTTP 200
response, and `none` on any non-200 status or raised transport exception;
being a total function, it lets no exception escape. -/
theorem claim8_execute_sql_contract (J : Type) (v : J) (status : Nat)
    (body msg : Str) (j : Option J) :
    execute_sql (HttpOutcome.response 200 body (some v)) = some v ∧
    (status ≠ 200 → execute_sql (HttpOutcome.response status body j) = none) ∧
    execute_sql (HttpOutcome.exception msg : HttpOutcome J) = none := by
  refine ⟨rfl, fun h => ?_, rfl⟩
  simp only [execute_sql, if_neg h]

/-- Witness for C8 at status 404 with a `Nat` JSON payload. -/
theorem claim8_execute_sql_contract_witness :
    execute_sql (HttpOutcome.response 200 [] (some (7 : Nat))) = some 7 ∧
    execute_sql (HttpOutcome.response 404 [] (some (7 : Nat))) = none ∧
    execute_sql (HttpOutcome.exception [] : HttpOutcome Nat) = none :=
  ⟨(claim8_execute_sql_contract Nat 7 404 [] [] (some 7)).1,
   (claim8_execute_sql_contract Nat 7 404 [] [] (some 7)).2.1 (by decide),
   (claim8_execute_sql_contract Nat 7 404 [] [] (some 7)).2.2⟩

/-- `pyStrip` is right-stripping after left-stripping. -/
theorem pyStrip_eq (s : Str) :
    pyStrip s = List.rdropWhile Char.isWhitespace (s.dropWhile Char.isWhitespace) := rfl

/-- Stripping is idempotent. -/
theorem pyStrip_idem (s : Str) : pyStrip (pyStrip s) = pyStrip s := by
  rw [pyStrip_eq s, pyStrip_eq]
  have hidem : List.dropWhile Char.isWhitespace (List.dropWhile Char.isWhitespace s)
      = List.dropWhile Char.isWhitespace s := List.dropWhile_idempotent _ _
  have h1 : List.dropWhile Char.isWhitespace
      (List.rdropWhile Char.isWhitespace (s.dropWhile Char.isWhitespace)) =
      List.rdropWhile Char.isWhitespace (s.dropWhile Char.isWhitespace) := by
    rcases eq_or_ne
        (List.rdropWhile Char.isWhitespace (s.dropWhile Char.isWhitespace)) [] with h | h
    · rw [h]; rfl
    · obtain ⟨y, ys, hY⟩ := List.exists_cons_of_ne_nil h
      obtain ⟨t, ht⟩ := List.rdropWhile_prefix Char.isWhitespace
        (s.dropWhile Char.isWhitespace)
      rw [hY] at ht
      have hy : ¬Char.isWhitespace y = true := by
        intro hy
        rw [← ht, List.cons_append, List.dropWhile_cons_of_pos hy] at hidem
        have hlen := congrArg List.length hidem
        have hle : (List.dropWhile Char.isWhitespace (ys ++ t)).length ≤ (ys ++ t).length :=
          (List.dropWhile_suffix Char.isWhitespace).sublist.length_le
        simp only [List.length_cons] at hlen
        omega
      rw [hY, List.dropWhile_cons_of_neg hy]
  rw [h1, List.rdropWhile_idempotent]

/-- A note token is "good" when it is nonempty after stripping and is not
`"unknown"` case-insensitively. -/
def goodToken (t : Str) : Prop := pyStrip t ≠ [] ∧ pyLower t ≠ "unknown".toList

/-- Every token produced by the notes parser is good. -/
theorem parseNotes_good {s t : Str} (h : t ∈ parseNotes s) : goodToken t := by
  unfold parseNotes at h
  rw [List.mem_filter] at h
  obtain ⟨hmem, hcond⟩ := h
  have hc := of_decide_eq_true hcond
  rw [List.mem_map] at hmem
  obtain ⟨u, _, rfl⟩ := hmem
  exact ⟨by rw [pyStrip_idem]; exact hc.1, hc.2⟩

theorem mem_insertNew [DecidableEq α] {x y : α} {l : List α}
    (h : x ∈ insertNew y l) : x = y ∨ x ∈ l := by
  unfold insertNew at h
  split at h
  · exact Or.inr h
  · rcases List.mem_append.mp h with h | h
    · exact Or.inr h
    · exact Or.inl (List.mem_singleton.mp h)

theorem mem_addNotes {t : Str} : ∀ {ns acc : List Str},
    t ∈ addNotes ns acc → t ∈ ns ∨ t ∈ acc := by
  intro ns
  induction ns with
  | nil => intro acc h; exact Or.inr h
  | cons n ns ih =>
    intro acc h
    rcases ih h with h | h
    · exact Or.inl (List.mem_cons_of_mem n h)
    · rcases mem_insertNew h with h | h
      · exact Or.inl (h ▸ List.mem_cons_self n ns)
      · exact Or.inr h

/-- The notes fields of a parsed row are notes-parser outputs. -/
theorem parseRow_note_fields {row : List Str} {fr : FragranceRecord}
    (h : parseRow row = some fr) :
    ∃ a b c, fr.top_notes = parseNotes a ∧ fr.middle_notes = parseNotes b ∧
      fr.base_notes = parseNotes c := by
  unfold parseRow at h
  by_cases hl : row.length < 11
  · rw [if_pos hl] at h; cases h
  · rw [if_neg hl] at h
    have he := Option.some.inj h
    exact ⟨row.getD 8 [], row.getD 9 [], row.getD 10 [],
      by rw [← he], by rw [← he], by rw [← he]⟩

theorem processRow_notes_good {st : LoadState} {row : List Str}
    (h : ∀ t ∈ st.notes, goodToken t) :
    ∀ t ∈ (processRow st row).notes, goodToken t := by
  unfold processRow
  rcases hp : parseRow row with _ | fr
  · exact h
  · intro t ht
    simp only at ht
    rcases mem_addNotes ht with hmem | hmem
    · obtain ⟨a, b, c, ha, hb, hc⟩ := parseRow_note_fields hp
      rw [ha, hb, hc] at hmem
      rcases List.mem_append.mp hmem with hm | hm
      · rcases List.mem_append.mp hm with hm | hm
        · exact parseNotes_good hm
        · exact parseNotes_good hm
      · exact parseNotes_good hm
    · exact h t hmem

theorem processRows_notes_good {rows : List (List Str)} : ∀ {st : LoadState},
    (∀ t ∈ st.notes, goodToken t) →
    ∀ t ∈ (processRows rows st).notes, goodToken t := by
  induction rows with
  | nil => intro st h; exact h
  | cons r rows ih =>
    intro st h
    exact ih (processRow_notes_good h)

theorem loadCSVAux_notes_good {attempts : List DecodeResult} : ∀ {st : LoadState},
    (∀ t ∈ st.notes, goodToken t) →
    ∀ t ∈ (loadCSVAux st attempts).notes, goodToken t := by
  induction attempts with
  | nil => intro st h; exact h
  | cons a rest ih =>
    intro st h
    cases a with
    | ok rows => exact processRows_notes_good h
    | fail pre => exact ih (processRows_notes_good h)

/-- C4: the notes parser never emits a token that is empty after stripping
or equal to `"unknown"` case-insensitively, and consequently no such token
is ever in the accumulated note set of a load. -/
theorem claim4_no_blank_or_unknown_note (s t : Str) (attempts : List DecodeResult) :
    (t ∈ parseNotes s → pyStrip t ≠ [] ∧ pyLower t ≠ "unknown".toList) ∧
    (t ∈ (load_csv_data attempts).notes →
      pyStrip t ≠ [] ∧ pyLower t ≠ "unknown".toList) := by
  constructor
  · exact fun h => parseNotes_good h
  · intro h
    exact loadCSVAux_notes_good (fun t ht => absurd ht (by simp [emptyState])) t h

/-- Witness for C4: the token `"Bergamot"` from a concrete column and a
concrete one-row load. -/
theorem claim4_no_blank_or_unknown_note_witness :
    pyStrip "Bergamot".toList ≠ [] ∧ pyLower "Bergamot".toList ≠ "unknown".toList :=
  (claim4_no_blank_or_unknown_note "Bergamot, Lemon".toList "Bergamot".toList
    [.ok [splitOnChar ';' sampleRow]]).2 (by decide)

/-- Quote escaping doubles the number of single-quote characters. -/
theorem escapeQuotes_count (s : Str) :
    (escapeQuotes s).count squote = 2 * s.count squote := by
  induction s with
  | nil => rfl
  | cons c cs ih =>
    simp only [escapeQuotes, List.flatMap_cons] at ih ⊢
    by_cases hc : c = squote
    · subst hc
      simp [List.count_append, List.count_cons, ih]
      omega
    · simp [List.count_append, List.count_cons, hc, ih]

/-- C5: the batch builder doubles every single quote (`L'Eau` becomes
`L''Eau` inside its value tuple), emits exactly one value tuple per input
string — the statement is the literal header, the comma-join of the
per-string tuples, and the trailer — and the trailer carries the
`ON CONFLICT (name) DO NOTHING` clause.  Both the brands and the notes
builder are covered. -/
theorem claim5_batch_sql_shape (batch : List Str) (s : Str) :
    (escapeQuotes s).count squote = 2 * s.count squote ∧
    escapeQuotes ('L' :: squote :: "Eau".toList) =
      'L' :: squote :: squote :: "Eau".toList ∧
    sqlValueTuple ('L' :: squote :: "Eau".toList) =
      '(' :: squote :: 'L' :: squote :: squote :: ('E' :: 'a' :: 'u' :: [squote, ')']) ∧
    brandsInsertSQL batch =
      "\n    INSERT INTO brands (name) VALUES\n    ".toList ++
        pyJoin [','] (batch.map sqlValueTuple) ++
        "\n    ON CONFLICT (name) DO NOTHING;\n    ".toList ∧
    notesInsertSQL batch =
      "\n    INSERT INTO notes (name) VALUES\n    ".toList ++
        pyJoin [','] (batch.map sqlValueTuple) ++
        "\n    ON CONFLICT (name) DO NOTHING;\n    ".toList ∧
    (batch.map sqlValueTuple).length = batch.length ∧
    (∃ u v, brandsInsertSQL batch =
      u ++ "ON CONFLICT (name) DO NOTHING".toList ++ v) ∧
    (∃ u v, notesInsertSQL batch =
      u ++ "ON CONFLICT (name) DO NOTHING".toList ++ v) := by
  have htrailer : "\n    ON CONFLICT (name) DO NOTHING;\n    ".toList =
      "\n    ".toList ++ "ON CONFLICT (name) DO NOTHING".toList ++ ";\n    ".toList := by
    decide
  refine ⟨escapeQuotes_count s, by decide, by decide, rfl, rfl, List.length_map _ _, ?_, ?_⟩
  · refine ⟨"\n    INSERT INTO brands (name) VALUES\n    ".toList ++
      pyJoin [','] (batch.map sqlValueTuple) ++ "\n    ".toList, ";\n    ".toList, ?_⟩
    unfold brandsInsertSQL
    rw [htrailer]
    simp [List.append_assoc]
  · refine ⟨"\n    INSERT INTO notes (name) VALUES\n    ".toList ++
      pyJoin [','] (batch.map sqlValueTuple) ++ "\n    ".toList, ";\n    ".toList, ?_⟩
    unfold notesInsertSQL
    rw [htrailer]
    simp [List.append_assoc]

theorem pyRange_eq_cons {start stop step : Nat} (hs : 0 < step) (h : start < stop) :
    pyRange start stop step = start :: pyRange (start + step) stop step := by
  conv_lhs => rw [pyRange]
  rw [dif_pos ⟨hs, h⟩]

theorem pyRange_eq_nil {start stop step : Nat} (h : ¬(0 < step ∧ start < stop)) :
    pyRange start stop step = [] := by
  unfold pyRange
  rw [dif_neg h]

/-- Shifting both endpoints of a range shifts its elements. -/
theorem pyRange_add (step k start stop : Nat) :
    pyRange (start + k) (stop + k) step = (pyRange start stop step).map (fun x => x + k) := by
  by_cases hs : 0 < step ∧ start < stop
  · rw [pyRange_eq_cons hs.1 hs.2, pyRange_eq_cons hs.1 (by omega), List.map_cons]
    have ih := pyRange_add step k (start + step) stop
    rw [show start + k + step = start + step + k by omega, ih]
  · rw [pyRange_eq_nil hs, pyRange_eq_nil (by omega), List.map_nil]
termination_by stop - start
decreasing_by omega

/-- A range starting at `k` is the shifted range from zero. -/
theorem pyRange_shift (k stop step : Nat) :
    pyRange k stop step = (pyRange 0 (stop - k) step).map (fun x => x + k) := by
  rcases le_or_lt k stop with h | h
  · have := pyRange_add step k 0 (stop - k)
    rwa [Nat.zero_add, Nat.sub_add_cancel h] at this
  · rw [pyRange_eq_nil (by omega), Nat.sub_eq_zero_of_le (le_of_lt h),
      pyRange_eq_nil (by omega), List.map_nil]

theorem mem_pyRange_lt (step start stop i : Nat) (h : i ∈ pyRange start stop step) :
    i < stop := by
  by_cases hs : 0 < step ∧ start < stop
  · rw [pyRange_eq_cons hs.1 hs.2] at h
    rcases List.mem_cons.mp h with rfl | h
    · exact hs.2
    · exact mem_pyRange_lt step (start + step) stop i h
  · rw [pyRange_eq_nil hs] at h
    cases h
termination_by stop - start
decreasing_by omega

/-- Unfolding of the batch loop: the first 50 elements form the first batch
and the loop continues on the rest. -/
theorem batches_cons (l : List α) (h : l ≠ []) :
    batches l = l.take 50 :: batches (l.drop 50) := by
  unfold batches
  have hlen : 0 < l.length := List.length_pos.mpr h
  rw [pyRange_eq_cons (by omega) hlen, List.map_cons]
  congr 1
  rw [pyRange_shift 50 l.length 50, List.map_map, List.length_drop]
  apply List.map_congr_left
  intro i _
  simp only [Function.comp, pySlice, List.drop_drop]
  rw [Nat.add_comm 50 i]

theorem batches_nil : batches ([] : List α) = [] := by
  unfold batches
  rw [pyRange_eq_nil (by simp), List.map_nil]

/-- The batches are consecutive, in order, without omission or overlap:
concatenating them gives the list back. -/
theorem batches_flatten (l : List α) : (batches l).flatten = l := by
  rcases eq_or_ne l [] with rfl | h
  · rw [batches_nil]; rfl
  · rw [batches_cons l h, List.flatten_cons, batches_flatten (l.drop 50)]
    exact List.take_append_drop 50 l
termination_by l.length
decreasing_by
  rw [List.length_drop]
  have := List.length_pos.mpr h
  omega

theorem batches_length_le {l : List α} {b : List α} (h : b ∈ batches l) :
    b.length ≤ 50 := by
  unfold batches at h
  obtain ⟨i, _, rfl⟩ := List.mem_map.mp h
  simp only [pySlice, List.length_take]
  omega

theorem batches_ne_nil {l : List α} {b : List α} (h : b ∈ batches l) : b ≠ [] := by
  unfold batches at h
  obtain ⟨i, hi, rfl⟩ := List.mem_map.mp h
  have hlt := mem_pyRange_lt 50 0 l.length i hi
  have : (pySlice l i 50).length ≠ 0 := by
    simp [pySlice, List.length_take, List.length_drop]
    omega
  exact fun hnil => this (by rw [hnil]; rfl)

theorem create_brands_batch_log {J : Type} (t : Str → HttpOutcome J) (b : List Str)
    (h : b ≠ []) : (create_brands_batch t b).2 = [brandsInsertSQL b] := by
  unfold create_brands_batch
  rw [if_neg (by simpa using h)]

theorem create_notes_batch_log {J : Type} (t : Str → HttpOutcome J) (b : List Str)
    (h : b ≠ []) : (create_notes_batch t b).2 = [notesInsertSQL b] := by
  unfold create_notes_batch
  rw [if_neg (by simpa using h)]

theorem foldl_append_log {α β : Type} (f : α → List β) (l : List α) (init : List β) :
    l.foldl (fun log b => log ++ f b) init = init ++ (l.map f).flatten := by
  induction l generalizing init with
  | nil => simp
  | cons x xs ih => simp [ih, List.append_assoc]

theorem flatten_map_singleton {α β : Type} (f : α → β) (l : List α) :
    (l.map (fun x => [f x])).flatten = l.map f := by
  induction l with
  | nil => rfl
  | cons x xs ih => simp [ih]

/-- The SQL statements `main` sends are exactly one per brand batch followed
by one per note batch, independently of any per-batch outcome. -/
theorem mainBatchTrace_eq {J : Type} (t : Str → HttpOutcome J) (brands notes : List Str) :
    mainBatchTrace t brands notes =
      (batches brands).map brandsInsertSQL ++ (batches notes).map notesInsertSQL := by
  unfold mainBatchTrace
  rw [foldl_append_log, foldl_append_log, List.nil_append, List.nil_append]
  congr 1
  · rw [List.map_congr_left (fun b hb => create_brands_batch_log t b (batches_ne_nil hb)),
      flatten_map_singleton]
  · rw [List.map_congr_left (fun b hb => create_notes_batch_log t b (batches_ne_nil hb)),
      flatten_map_singleton]

/-- C6: the orchestrator partitions the brand and note lists into
consecutive batches of at most 50, in order and without omission or overlap
(concatenating the batches restores the list), and issues exactly one SQL
statement per batch. -/
theorem claim6_batching (α : Type) (l : List α) (J : Type)
    (t : Str → HttpOutcome J) (brands notes : List Str) :
    (batches l).flatten = l ∧
    (∀ b, b ∈ batches l → b.length ≤ 50) ∧
    (mainBatchTrace t brands notes).length =
      (batches brands).length + (batches notes).length := by
  refine ⟨batches_flatten l, fun b hb => batches_length_le hb, ?_⟩
  rw [mainBatchTrace_eq]
  simp

/-- Witness for C6 at a concrete three-element list and one-batch run. -/
theorem claim6_batching_witness :
    (batches [1, 2, 3]).flatten = [1, 2, 3] ∧ ([1, 2, 3] : List Nat).length ≤ 50 :=
  ⟨(claim6_batching Nat [1, 2, 3] Nat (fun _ => .exception []) [] []).1,
   (claim6_batching Nat [1, 2, 3] Nat (fun _ => .exception []) [] []).2.1 [1, 2, 3]
     (by simp [batches, pyRange, pySlice])⟩

/-- C9: a failed batch does not stop the orchestrator — the statements sent
are exactly one per brand batch and one per note batch, in order, whatever
the per-batch outcomes are; two arbitrary transports (hence arbitrary
patterns of non-200 responses and exceptions) produce the identical call
sequence, so there is no retry, no halt, and no run-level failure signal
derived from the outcomes. -/
theorem claim9_failures_do_not_stop_run (J J2 : Type) (t : Str → HttpOutcome J)
    (t2 : Str → HttpOutcome J2) (brands notes : List Str) :
    mainBatchTrace t brands notes =
      (batches brands).map brandsInsertSQL ++ (batches notes).map notesInsertSQL ∧
    mainBatchTrace t brands notes = mainBatchTrace t2 brands notes := by
  refine ⟨mainBatchTrace_eq t brands notes, ?_⟩
  rw [mainBatchTrace_eq, mainBatchTrace_eq]

/-- A row the first encoding attempt decodes before hitting the decode
error (and which the second attempt decodes again, or not at all). -/
def earlyRow : List Str :=
  ["u1", "Frag One", "brand-one", "FR", "Men", "", "", "", "Rose", "", ""].map
    String.toList

/-- A row only the successful second attempt decodes. -/
def lateRow : List Str :=
  ["u2", "Frag Two", "brand-two", "FR", "Women", "", "", "", "Musk", "", ""].map
    String.toList

/-- The record `earlyRow` parses to. -/
def earlyRecord : FragranceRecord :=
  { url := "u1".toList
    name := "Frag One".toList
    brand := "Brand-One".toList
    country := "FR".toList
    gender := "male".toList
    rating := none
    year := none
    top_notes := ["Rose".toList]
    middle_notes := []
    base_notes := [] }

/-- The record `lateRow` parses to. -/
def lateRecord : FragranceRecord :=
  { url := "u2".toList
    name := "Frag Two".toList
    brand := "Brand-Two".toList
    country := "FR".toList
    gender := "female".toList
    rating := none
    year := none
    top_notes := ["Musk".toList]
    middle_notes := []
    base_notes := [] }

/-- C10: the loader does not reset its accumulators between encoding
attempts.  When the first encoding decodes `earlyRow` and then raises, and
the second encoding decodes the whole file (`earlyRow` then `lateRow`), the
returned fragrance list holds `earlyRow`'s record twice.  And when the
failed attempt's decoded rows do not reappear in the successful attempt,
the brand and note sets keep entries (`Brand-One`, `Rose`) contributed only
by the failed attempt, entries a clean load of the successful decode does
not contain. -/
theorem claim10_no_reset_between_encoding_attempts :
    (load_csv_data [.fail [earlyRow], .ok [earlyRow, lateRow]]).fragrances =
      [earlyRecord, earlyRecord, lateRecord] ∧
    "Brand-One".toList ∈ (load_csv_data [.fail [earlyRow], .ok [lateRow]]).brands ∧
    "Rose".toList ∈ (load_csv_data [.fail [earlyRow], .ok [lateRow]]).notes ∧
    "Brand-One".toList ∉ (load_csv_data [.ok [lateRow]]).brands ∧
    "Rose".toList ∉ (load_csv_data [.ok [lateRow]]).notes := by
  decide

/-! ### Character-level facts about ASCII case mapping, for C2 -/

theorem char_toNat_ofNat (n : Nat) (h : n.isValidChar) : (Char.ofNat n).toNat = n := by
  simp [Char.ofNat, h, Char.ofNatAux, Char.toNat, UInt32.toNat]

theorem char_eq_iff_toNat (c d : Char) : c = d ↔ c.toNat = d.toNat := by
  constructor
  · intro h; rw [h]
  · intro h
    apply Char.ext
    apply UInt32.eq_of_toBitVec_eq
    apply BitVec.eq_of_toNat_eq
    exact h

theorem toNat_toUpper (c : Char) :
    c.toUpper.toNat = if c.toNat ≥ 97 ∧ c.toNat ≤ 122 then c.toNat - 32 else c.toNat := by
  simp only [Char.toUpper]
  split_ifs with h
  · exact char_toNat_ofNat _ (Or.inl (by omega))
  · rfl

theorem toNat_toLower (c : Char) :
    c.toLower.toNat = if c.toNat ≥ 65 ∧ c.toNat ≤ 90 then c.toNat + 32 else c.toNat := by
  simp only [Char.toLower]
  split_ifs with h
  · exact char_toNat_ofNat _ (Or.inl (by omega))
  · rfl

theorem char_isAlpha_iff (c : Char) :
    c.isAlpha = true ↔ (65 ≤ c.toNat ∧ c.toNat ≤ 90) ∨ (97 ≤ c.toNat ∧ c.toNat ≤ 122) := by
  simp [Char.isAlpha, Char.isUpper, Char.isLower, Char.toNat,
    UInt32.le_def, BitVec.le_def, UInt32.toNat]

theorem toUpper_toUpper (c : Char) : c.toUpper.toUpper = c.toUpper := by
  rw [char_eq_iff_toNat, toNat_toUpper, toNat_toUpper]
  split_ifs <;> omega

theorem toLower_toLower (c : Char) : c.toLower.toLower = c.toLower := by
  rw [char_eq_iff_toNat, toNat_toLower, toNat_toLower]
  split_ifs <;> omega

theorem isAlpha_toUpper {c : Char} (h : c.isAlpha = true) : c.toUpper.isAlpha = true := by
  rw [char_isAlpha_iff] at h ⊢
  rw [toNat_toUpper]
  split_ifs <;> omega

theorem isAlpha_toLower {c : Char} (h : c.isAlpha = true) : c.toLower.isAlpha = true := by
  rw [char_isAlpha_iff] at h ⊢
  rw [toNat_toLower]
  split_ifs <;> omega

theorem alpha_toUpper_ne_space {c : Char} (h : c.isAlpha = true) : c.toUpper ≠ ' ' := by
  rw [char_isAlpha_iff] at h
  rw [Ne, char_eq_iff_toNat, toNat_toUpper, show (' ' : Char).toNat = 32 from rfl]
  split_ifs <;> omega

theorem alpha_toLower_ne_space {c : Char} (h : c.isAlpha = true) : c.toLower ≠ ' ' := by
  rw [char_isAlpha_iff] at h
  rw [Ne, char_eq_iff_toNat, toNat_toLower, show (' ' : Char).toNat = 32 from rfl]
  split_ifs <;> omega

theorem alpha_toUpper_ne_hyphen {c : Char} (h : c.isAlpha = true) : c.toUpper ≠ '-' := by
  rw [char_isAlpha_iff] at h
  rw [Ne, char_eq_iff_toNat, toNat_toUpper, show ('-' : Char).toNat = 45 from rfl]
  split_ifs <;> omega

theorem alpha_toLower_ne_hyphen {c : Char} (h : c.isAlpha = true) : c.toLower ≠ '-' := by
  rw [char_isAlpha_iff] at h
  rw [Ne, char_eq_iff_toNat, toNat_toLower, show ('-' : Char).toNat = 45 from rfl]
  split_ifs <;> omega

/-! ### Structure of the brand normalization, for C2 -/

theorem replaceChar_cons (a b c : Char) (cs : Str) :
    replaceChar a b (c :: cs) = (if c = a then b else c) :: replaceChar a b cs := rfl

theorem pyTitleAux_cons (prev : Bool) (c : Char) (cs : Str) :
    pyTitleAux prev (c :: cs) =
      if c.isAlpha then (if prev then c.toLower else c.toUpper) :: pyTitleAux true cs
      else c :: pyTitleAux false cs := rfl

theorem splitOnChar_cons (sep c : Char) (cs : Str) :
    splitOnChar sep (c :: cs) =
      match splitOnChar sep cs with
      | [] => [[]]
      | p :: ps => if c = sep then [] :: p :: ps else (c :: p) :: ps := rfl

theorem splitOnChar_ne_nil (sep : Char) (s : Str) :
    ∃ p ps, splitOnChar sep s = p :: ps := by
  cases s with
  | nil => exact ⟨[], [], rfl⟩
  | cons c cs =>
    obtain ⟨p, ps, hs⟩ := splitOnChar_ne_nil sep cs
    rw [splitOnChar_cons, hs]
    by_cases hc : c = sep
    · exact ⟨[], p :: ps, by simp [hc]⟩
    · exact ⟨c :: p, ps, by simp [hc]⟩

/-- The first title-cased segment (started with word-state `prev`) followed
by the remaining segments, each title-cased and preceded by a hyphen. -/
def titledJoin (prev : Bool) : List Str → Str
  | [] => []
  | p :: ps => pyTitleAux prev p ++ (ps.map pyTitle).flatMap (fun x => '-' :: x)

theorem flatMap_hyphen_cons (p : Str) (ps : List Str) :
    ((p :: ps).map pyTitle).flatMap (fun x => '-' :: x) =
      '-' :: titledJoin false (p :: ps) := by
  simp [titledJoin, pyTitle, List.flatMap_cons]

theorem pyJoin_hyphen (q : Str) (qs : List Str) :
    pyJoin ['-'] (q :: qs) = q ++ qs.flatMap (fun x => '-' :: x) := by
  induction qs generalizing q with
  | nil => simp [pyJoin]
  | cons r rs ih =>
    show q ++ ['-'] ++ pyJoin ['-'] (r :: rs) = _
    rw [ih r]
    simp [List.flatMap_cons, List.append_assoc]

theorem specNormalizeBrand_eq_titledJoin (s : Str) :
    specNormalizeBrand s = titledJoin false (splitOnChar '-' s) := by
  obtain ⟨p, ps, hs⟩ := splitOnChar_ne_nil '-' s
  unfold specNormalizeBrand
  rw [hs, List.map_cons, pyJoin_hyphen]
  simp [titledJoin, pyTitle, List.flatMap_map]

/-- Key agreement lemma: on space-free input, replace-title-replace equals
splitting on hyphens, title-casing each segment, and hyphen-joining. -/
theorem normalize_agrees_aux (s : Str) : ∀ prev : Bool, ' ' ∉ s →
    replaceChar ' ' '-' (pyTitleAux prev (replaceChar '-' ' ' s)) =
      titledJoin prev (splitOnChar '-' s) := by
  induction s with
  | nil => intro prev _; rfl
  | cons c cs ih =>
    intro prev h
    have hc : c ≠ ' ' := fun hh => h (hh ▸ List.mem_cons_self c cs)
    have hcs : ' ' ∉ cs := fun hh => h (List.mem_cons_of_mem c hh)
    obtain ⟨p, ps, hsplit⟩ := splitOnChar_ne_nil '-' cs
    by_cases hhy : c = '-'
    · subst hhy
      rw [replaceChar_cons, if_pos rfl, pyTitleAux_cons, if_neg (by decide),
        replaceChar_cons, if_pos rfl, ih false hcs, splitOnChar_cons, hsplit]
      simp only [if_pos rfl]
      show '-' :: titledJoin false (p :: ps) = titledJoin prev ([] :: p :: ps)
      rw [show titledJoin prev ([] :: p :: ps) =
          pyTitleAux prev [] ++ ((p :: ps).map pyTitle).flatMap (fun x => '-' :: x) from rfl,
        flatMap_hyphen_cons]
      rfl
    · by_cases hca : c.isAlpha = true
      · have hd : (if prev then c.toLower else c.toUpper) ≠ ' ' := by
          cases prev
          · simpa using alpha_toUpper_ne_space hca
          · simpa using alpha_toLower_ne_space hca
        rw [replaceChar_cons, if_neg hhy, pyTitleAux_cons, if_pos hca,
          replaceChar_cons, if_neg hd, ih true hcs, splitOnChar_cons, hsplit]
        simp only [if_neg hhy]
        show (if prev then c.toLower else c.toUpper) :: titledJoin true (p :: ps) =
          titledJoin prev ((c :: p) :: ps)
        rw [show titledJoin prev ((c :: p) :: ps) =
            pyTitleAux prev (c :: p) ++ (ps.map pyTitle).flatMap (fun x => '-' :: x) from rfl,
          pyTitleAux_cons, if_pos hca]
        rfl
      · rw [replaceChar_cons, if_neg hhy, pyTitleAux_cons, if_neg hca,
          replaceChar_cons, if_neg hc, ih false hcs, splitOnChar_cons, hsplit]
        simp only [if_neg hhy]
        show c :: titledJoin false (p :: ps) = titledJoin prev ((c :: p) :: ps)
        rw [show titledJoin prev ((c :: p) :: ps) =
            pyTitleAux prev (c :: p) ++ (ps.map pyTitle).flatMap (fun x => '-' :: x) from rfl,
          pyTitleAux_cons, if_neg hca]
        rfl

theorem not_mem_replaceChar_self {a b : Char} (hab : b ≠ a) (s : Str) :
    a ∉ replaceChar a b s := by
  intro hmem
  obtain ⟨c, _, hc⟩ := List.mem_map.mp hmem
  by_cases h : c = a
  · rw [if_pos h] at hc; exact hab hc
  · rw [if_neg h] at hc; exact h hc

theorem hyphen_not_mem_pyTitleAux (s : Str) : ∀ prev : Bool, '-' ∉ s →
    '-' ∉ pyTitleAux prev s := by
  induction s with
  | nil => intro prev _; simp [pyTitleAux]
  | cons c cs ih =>
    intro prev h
    have hc : c ≠ '-' := fun hh => h (hh ▸ List.mem_cons_self c cs)
    have hcs : '-' ∉ cs := fun hh => h (List.mem_cons_of_mem c hh)
    rw [pyTitleAux_cons]
    by_cases hca : c.isAlpha = true
    · rw [if_pos hca]
      intro hmem
      rcases List.mem_cons.mp hmem with heq | hmem2
      · cases prev
        · exact alpha_toUpper_ne_hyphen hca (by simpa using heq.symm)
        · exact alpha_toLower_ne_hyphen hca (by simpa using heq.symm)
      · exact ih true hcs hmem2
    · rw [if_neg hca]
      intro hmem
      rcases List.mem_cons.mp hmem with heq | hmem2
      · exact hc heq.symm
      · exact ih false hcs hmem2

theorem replace_roundtrip (t : Str) (h : '-' ∉ t) :
    replaceChar '-' ' ' (replaceChar ' ' '-' t) = t := by
  induction t with
  | nil => rfl
  | cons c cs ih =>
    have hc : c ≠ '-' := fun hh => h (hh ▸ List.mem_cons_self c cs)
    have hcs : '-' ∉ cs := fun hh => h (List.mem_cons_of_mem c hh)
    rw [replaceChar_cons]
    by_cases hsp : c = ' '
    · rw [if_pos hsp, replaceChar_cons, if_pos rfl, ih hcs, hsp]
    · rw [if_neg hsp, replaceChar_cons, if_neg hc, ih hcs]

theorem pyTitleAux_idem (s : Str) : ∀ prev : Bool,
    pyTitleAux prev (pyTitleAux prev s) = pyTitleAux prev s := by
  induction s with
  | nil => intro prev; rfl
  | cons c cs ih =>
    intro prev
    rw [pyTitleAux_cons]
    by_cases hca : c.isAlpha = true
    · rw [if_pos hca, pyTitleAux_cons]
      have hda : (if prev then c.toLower else c.toUpper).isAlpha = true := by
        cases prev
        · simpa using isAlpha_toUpper hca
        · simpa using isAlpha_toLower hca
      rw [if_pos hda, ih true]
      cases prev
      · simp [toUpper_toUpper]
      · simp [toLower_toLower]
    · rw [if_neg hca, pyTitleAux_cons, if_neg hca, ih false]

theorem normalizeBrand_idem (s : Str) :
    normalizeBrand (normalizeBrand s) = normalizeBrand s := by
  unfold normalizeBrand
  have h1 : '-' ∉ pyTitle (replaceChar '-' ' ' s) :=
    hyphen_not_mem_pyTitleAux _ false (not_mem_replaceChar_self (by decide) s)
  rw [replace_roundtrip _ h1]
  show replaceChar ' ' '-' (pyTitleAux false (pyTitleAux false (replaceChar '-' ' ' s))) = _
  rw [pyTitleAux_idem _ false]
  rfl

/-- C2 counterexample: for `B = "a b"` (a raw brand string containing a
space) the code's transform gives `"A-B"`, while title-casing with hyphens
as the word boundaries and hyphen-joining the resulting segments gives
`"A B"` — the claimed equality fails. -/
theorem claim2_brand_normalization_counterexample :
    normalizeBrand "a b".toList ≠ specNormalizeBrand "a b".toList := by decide

/-- C2 (amended): for every raw brand string with no space character, the
brand normalization (replace hyphens with spaces, title-case, replace
spaces with hyphens) equals title-casing with hyphens treated as word
boundaries and hyphen-joining the resulting segments; and on every raw
brand string, spaces included, the normalization is idempotent. -/
theorem claim2_brand_normalization (s : Str) :
    (' ' ∉ s → normalizeBrand s = specNormalizeBrand s) ∧
    normalizeBrand (normalizeBrand s) = normalizeBrand s := by
  refine ⟨fun h => ?_, normalizeBrand_idem s⟩
  rw [specNormalizeBrand_eq_titledJoin]
  exact normalize_agrees_aux s false h

/-- Witness for C2 at the concrete brands `"christian-dior"` (space-free)
and `"eau de parfum"` (with spaces, for idempotence). -/
theorem claim2_brand_normalization_witness :
    normalizeBrand "christian-dior".toList = specNormalizeBrand "christian-dior".toList ∧
    normalizeBrand (normalizeBrand "eau de parfum".toList) =
      normalizeBrand "eau de parfum".toList :=
  ⟨(claim2_brand_normalization "christian-dior".toList).1 (by decide),
   (claim2_brand_normalization "eau de parfum".toList).2⟩

end ScentSwap
